import Mathlib

/-!
Shallow embedding of the marchproxy packet-classification engine.

The definitions below are translated directly from the C sources:
* `src/proxy-egress/internal/acceleration/xdp/ebpf/enhanced_rules.c`
  (the enhanced XDP engine: `check_rate_limit`, `check_authentication`,
  `update_connection_tracking`, `needs_complex_processing`, `process_packet`),
* `src/proxy-egress/ebpf/src/rate_limit.c`
  (the standalone XDP rate limiter: `check_ip_rate_limit`,
  `check_global_rate_limit`, `update_stats`, `xdp_rate_limiter`),
* `src/proxy-l7/xdp/envoy_xdp.c` (`detect_tls`),
* `src/proxy/ebpf/programs/filter.c` (`marchproxy_filter`).

Machine integers are modelled as `Nat` with explicit `% 2^w` where
overflow matters.  BPF maps are modelled as association lists
(`List (Nat × V)`) with first-match lookup and in-place update, which
matches hash-map semantics with decidable equality of whole tables.
-/

/-- First-match lookup in an association list, mirroring
`bpf_map_lookup_elem`. -/
def lookupM {V : Type} (m : List (Nat × V)) (k : Nat) : Option V :=
  match m with
  | [] => none
  | (k₀, v) :: rest => if k₀ = k then some v else lookupM rest k

/-- In-place update (or insertion) in an association list, mirroring
`bpf_map_update_elem` with `BPF_ANY`. -/
def updateM {V : Type} (m : List (Nat × V)) (k : Nat) (v : V) : List (Nat × V) :=
  match m with
  | [] => [(k, v)]
  | (k₀, v₀) :: rest => if k₀ = k then (k, v) :: rest else (k₀, v₀) :: updateM rest k v

/-- Byte-swap of a 16-bit value, mirroring `bpf_ntohs`. -/
def ntohs (n : Nat) : Nat := (n % 256) * 256 + (n / 256) % 256

/-- The Ethernet protocol number for IPv4 (host order). -/
def ETH_P_IP : Nat := 0x0800

/-- Byte-swap of a 16-bit value, mirroring `bpf_htons` (the same swap as
`ntohs`). -/
def htons (n : Nat) : Nat := ntohs n

def PROTO_TCP : Nat := 6
def PROTO_UDP : Nat := 17
def PROTO_ICMP : Nat := 1

def AUTH_NONE : Nat := 0
def AUTH_SIMPLE : Nat := 1
def AUTH_COMPLEX : Nat := 2

def MAX_SERVICES : Nat := 1024

/-- One Ethernet frame as the engine sees it: the buffer length
(`data_end - data`), the raw buffer bytes (used for payload scans), and
the header fields the C code reads through struct casts, each guarded in
the model by exactly the bounds checks the C performs before the read.
Multi-byte wire fields (`ethProto`, ports) carry the value the C code
reads from the wire; `ntohs`/`htons` are applied exactly where the C
applies `bpf_ntohs`/`bpf_htons`. -/
structure Pkt where
  bytes : List Nat
  ethProto : Nat
  ipVersion : Nat
  ihl : Nat
  ipProto : Nat
  saddr : Nat
  daddr : Nat
  tcpSource : Nat
  tcpDest : Nat
  tcpDoff : Nat
  udpSource : Nat
  udpDest : Nat
  icmpType : Nat

/-- Buffer length, `data_end - data`. -/
def Pkt.len (p : Pkt) : Nat := p.bytes.length

/-- Byte at absolute buffer offset `i` (a `char` read in the C code). -/
def Pkt.byteAt (p : Pkt) (i : Nat) : Nat := (p.bytes.getD i 0) % 256

/-- Little-endian 32-bit load at absolute offset `i`
(the `*(__u32 *)(payload + i + 20)` read in `check_authentication`). -/
def Pkt.u32At (p : Pkt) (i : Nat) : Nat :=
  p.byteAt i + 256 * p.byteAt (i+1) + 65536 * p.byteAt (i+2) + 16777216 * p.byteAt (i+3)

/-! ## Data model of `enhanced_rules.c` -/

/-- `struct service` of `enhanced_rules.c`. -/
structure Service where
  service_id : Nat
  ip_addr : Nat
  port_start : Nat
  port_end : Nat
  protocol : Nat
  auth_type : Nat
  requires_tls : Nat
  allows_websocket : Nat
  rate_limit_pps : Nat
  bandwidth_limit : Nat
  last_activity : Nat
  packet_count : Nat
  byte_count : Nat
deriving DecidableEq, Repr

/-- `struct rate_limit_entry` of `enhanced_rules.c`. -/
structure RateLimitEntry where
  key : Nat
  last_update : Nat
  packet_count : Nat
  byte_count : Nat
  tokens : Nat
deriving DecidableEq, Repr

/-- `struct connection` of `enhanced_rules.c`. -/
structure Connection where
  src_ip : Nat
  dst_ip : Nat
  src_port : Nat
  dst_port : Nat
  protocol : Nat
  connState : Nat
  last_activity : Nat
  packets_rx : Nat
  packets_tx : Nat
  bytes_rx : Nat
  bytes_tx : Nat
  service_id : Nat
deriving DecidableEq, Repr

/-- `struct auth_token` of `enhanced_rules.c`. -/
structure AuthToken where
  token_hash : Nat
  service_id : Nat
  expiry_time : Nat
  permissions : Nat
deriving DecidableEq, Repr

/-- `struct global_stats` of `enhanced_rules.c`. -/
structure GlobalStats where
  total_packets : Nat
  passed_packets : Nat
  dropped_packets : Nat
  redirected_afxdp : Nat
  redirected_go : Nat
  rate_limited : Nat
  auth_failures : Nat
  invalid_packets : Nat
  last_update : Nat
deriving DecidableEq, Repr

/-- The maps the enhanced XDP engine reads and writes. -/
structure EngState where
  services : List (Nat × Service)
  rateMap : List (Nat × RateLimitEntry)
  connMap : List (Nat × Connection)
  authTokens : List (Nat × AuthToken)
  stats : Option GlobalStats
deriving DecidableEq, Repr

/-- `hash_connection` of `enhanced_rules.c`: 32-bit XOR fold of the
5-tuple. -/
def hash_connection (src_ip dst_ip src_port dst_port proto : Nat) : Nat :=
  (src_ip % 2^32) ^^^ (dst_ip % 2^32) ^^^ ((src_port % 2^16) <<< 16)
    ^^^ (dst_port % 2^16) ^^^ (proto % 2^8)

/-- The refill block of `check_rate_limit` in `enhanced_rules.c`:
compute `tokens_to_add = time_diff * limit_pps / 10^9` and, when
positive, add it to the bucket, clamp at `limit_pps`, and stamp
`last_update`. -/
def refillEntry (e : RateLimitEntry) (now limit_pps : Nat) : RateLimitEntry :=
  let time_diff := (now + 2^64 - e.last_update) % 2^64
  let tokens_to_add := ((time_diff * limit_pps) % 2^64 / 1000000000) % 2^32
  if tokens_to_add > 0 then
    let t := (e.tokens + tokens_to_add) % 2^32
    { e with tokens := if t > limit_pps then limit_pps else t, last_update := now }
  else e

/-- `check_rate_limit` of `enhanced_rules.c`: token bucket keyed by
`key` with rate `limit_pps`; returns the admit flag and the updated
`rate_limit_map`.  All counters are `__u32`, timestamps `__u64`. -/
def check_rate_limit (m : List (Nat × RateLimitEntry)) (now key limit_pps : Nat) :
    Bool × List (Nat × RateLimitEntry) :=
  match lookupM m key with
  | none =>
      let ne : RateLimitEntry :=
        { key := key, last_update := now, packet_count := 1, byte_count := 0,
          tokens := (limit_pps + 2^32 - 1) % 2^32 }
      (true, updateM m key ne)
  | some e =>
      let e₁ := refillEntry e now limit_pps
      if e₁.tokens > 0 then
        (true, updateM m key
          { e₁ with tokens := e₁.tokens - 1, packet_count := (e₁.packet_count + 1) % 2^32 })
      else
        (false, updateM m key e₁)

/-- The token-scan loop of `check_authentication`: starting from payload
index `i` with `fuel` iterations left (the C loop bound is `i < 24`),
look for the literal bytes `Auth`; on the first hit return the 32-bit
value at offset `i + 20` from the payload, else 0. -/
def scanAuthAux (p : Pkt) (payOff : Nat) : Nat → Nat → Nat
  | _, 0 => 0
  | i, fuel + 1 =>
      if payOff + i + 8 < p.len then
        if p.byteAt (payOff + i) = 65 ∧ p.byteAt (payOff + i + 1) = 117 ∧
           p.byteAt (payOff + i + 2) = 116 ∧ p.byteAt (payOff + i + 3) = 104 then
          p.u32At (payOff + i + 20)
        else scanAuthAux p payOff (i + 1) fuel
      else 0

/-- The extracted `token_hash` of `check_authentication` (0 when the
scan finds no `Auth` marker). -/
def scanAuth (p : Pkt) (payOff : Nat) : Nat := scanAuthAux p payOff 0 24

/-- `check_authentication` of `enhanced_rules.c`.  Returns `true` when
the fast-path auth check admits the packet. -/
def check_authentication (p : Pkt) (tokens : List (Nat × AuthToken))
    (now service_id : Nat) : Bool :=
  if p.len < 14 then false
  else if p.ethProto ≠ htons ETH_P_IP then true
  else if p.len < 34 then false
  else if p.ipProto ≠ PROTO_TCP then true
  else
    let tcpOff := 14 + p.ihl * 4
    if p.len < tcpOff + 20 then false
    else
      let payOff := tcpOff + p.tcpDoff * 4
      if payOff + 32 > p.len then true
      else
        let h := scanAuth p payOff
        if h = 0 then false
        else
          match lookupM tokens h with
          | none => false
          | some tok =>
              if now > tok.expiry_time then false
              else if tok.service_id ≠ service_id ∧ tok.service_id ≠ 0 then false
              else true

/-- `update_connection_tracking` of `enhanced_rules.c`: keyed by
`hash_connection` only; creates an entry on miss, refreshes counters and
`last_activity` on hit (without comparing the stored tuple). -/
def update_connection_tracking (cm : List (Nat × Connection))
    (now src_ip dst_ip src_port dst_port protocol service_id packet_len : Nat) :
    List (Nat × Connection) :=
  let h := hash_connection src_ip dst_ip src_port dst_port protocol
  match lookupM cm h with
  | none =>
      updateM cm h
        { src_ip := src_ip, dst_ip := dst_ip, src_port := src_port,
          dst_port := dst_port, protocol := protocol, connState := 1,
          last_activity := now, packets_rx := 1, packets_tx := 0,
          bytes_rx := packet_len, bytes_tx := 0, service_id := service_id }
  | some c =>
      updateM cm h
        { c with last_activity := now,
                 packets_rx := (c.packets_rx + 1) % 2^64,
                 bytes_rx := (c.bytes_rx + packet_len) % 2^64 }

/-- `needs_complex_processing` of `enhanced_rules.c`. -/
def needs_complex_processing (p : Pkt) (service : Option Service) : Bool :=
  match service with
  | none => true
  | some s =>
      if s.requires_tls ≠ 0 then true
      else if s.allows_websocket ≠ 0 then true
      else if s.auth_type = AUTH_COMPLEX then true
      else if p.len < 14 then true
      else if p.ethProto ≠ htons ETH_P_IP then false
      else if p.len < 34 then true
      else if p.ipProto = PROTO_TCP then
        let tcpOff := 14 + p.ihl * 4
        if p.len < tcpOff + 20 then true
        else if ntohs p.tcpDest = 443 then true
        else
          let payOff := tcpOff + p.tcpDoff * 4
          if payOff + 6 ≤ p.len then
            if p.byteAt payOff = 0x16 ∧ p.byteAt (payOff + 1) = 0x03 then true
            else if p.byteAt payOff = 71 ∧ p.byteAt (payOff + 1) = 69 ∧
                    p.byteAt (payOff + 2) = 84 then true
            else false
          else false
      else false

/-- `detect_tls` of `envoy_xdp.c`, applied to the payload starting at
absolute offset `off`. -/
def detect_tls (p : Pkt) (off : Nat) : Bool :=
  if off + 3 > p.len then false
  else if (p.byteAt off = 0x16 ∨ p.byteAt off = 0x17) ∧ p.byteAt (off + 1) = 0x03 ∧
          (0x01 ≤ p.byteAt (off + 2) ∧ p.byteAt (off + 2) ≤ 0x04) then true
  else false

/-- Outcome of the header-parsing prefix of `process_packet`:
`invalid` covers the `drop_invalid` goto targets (truncated Ethernet,
IPv4 or transport header), `passThrough` the `pass_simple` targets for
non-IPv4 and unknown transport protocols, and `ok` carries the parsed
5-tuple. -/
inductive ParseOut where
  | invalid : ParseOut
  | passThrough : ParseOut
  | ok (src_ip dst_ip src_port dst_port protocol : Nat) : ParseOut
deriving DecidableEq, Repr

/-- The header-parsing prefix of `process_packet` in `enhanced_rules.c`
(bounds checks and field extraction, including the `switch` over the
transport protocol). -/
def parsePkt (p : Pkt) : ParseOut :=
  if p.len < 14 then .invalid
  else if p.ethProto ≠ htons ETH_P_IP then .passThrough
  else if p.len < 34 then .invalid
  else
    let tOff := 14 + p.ihl * 4
    if p.ipProto = PROTO_TCP then
      if p.len < tOff + 20 then .invalid
      else .ok p.saddr p.daddr (ntohs p.tcpSource) (ntohs p.tcpDest) PROTO_TCP
    else if p.ipProto = PROTO_UDP then
      if p.len < tOff + 8 then .invalid
      else .ok p.saddr p.daddr (ntohs p.udpSource) (ntohs p.udpDest) PROTO_UDP
    else if p.ipProto = PROTO_ICMP then
      if p.len < tOff + 8 then .invalid
      else .ok p.saddr p.daddr 0 p.icmpType PROTO_ICMP
    else .passThrough

/-- One service matches the packet destination exactly as in the loop
body of `process_packet`. -/
def svcMatch (s : Service) (dst_ip dst_port protocol : Nat) : Bool :=
  s.ip_addr = dst_ip ∧ s.port_start ≤ dst_port ∧ dst_port ≤ s.port_end ∧
    (s.protocol = 0 ∨ s.protocol = protocol)

/-- The service-lookup loop of `process_packet`, scanning keys starting
at `k` with `fuel` keys left. -/
def findSvcFrom (svcs : List (Nat × Service)) (dst_ip dst_port protocol : Nat) :
    Nat → Nat → Option (Nat × Service)
  | _, 0 => none
  | k, fuel + 1 =>
      match lookupM svcs k with
      | some s =>
          if svcMatch s dst_ip dst_port protocol then some (k, s)
          else findSvcFrom svcs dst_ip dst_port protocol (k + 1) fuel
      | none => findSvcFrom svcs dst_ip dst_port protocol (k + 1) fuel

/-- The service-lookup loop of `process_packet`: iterates
`service_key = 1 .. MAX_SERVICES` and returns the first key whose stored
service matches the destination. -/
def findService (svcs : List (Nat × Service)) (dst_ip dst_port protocol : Nat) :
    Option (Nat × Service) :=
  findSvcFrom svcs dst_ip dst_port protocol 1 MAX_SERVICES

/-- Verdicts of the enhanced XDP engine (`XDP_PASS`, `XDP_DROP`, and the
`bpf_redirect_map` hand-off to the AF_XDP slow path). -/
inductive Verdict where
  | pass : Verdict
  | drop : Verdict
  | redirect : Verdict
deriving DecidableEq, Repr

/-- Counter bumps shared by the `goto` targets of `process_packet`. -/
def bumpStats (st : EngState) (f : GlobalStats → GlobalStats) : EngState :=
  { st with stats := st.stats.map f }

/-- `process_packet` of `enhanced_rules.c`: the full decision engine,
returning the verdict and the updated map state. -/
def processPacket (st₀ : EngState) (p : Pkt) (now : Nat) : Verdict × EngState :=
  let st := bumpStats st₀ fun g =>
    { g with total_packets := (g.total_packets + 1) % 2^64, last_update := now }
  match parsePkt p with
  | .invalid =>
      (.drop, bumpStats st fun g =>
        { g with dropped_packets := (g.dropped_packets + 1) % 2^64,
                 invalid_packets := (g.invalid_packets + 1) % 2^64 })
  | .passThrough =>
      (.pass, bumpStats st fun g =>
        { g with passed_packets := (g.passed_packets + 1) % 2^64 })
  | .ok src_ip dst_ip src_port dst_port protocol =>
      match findService st.services dst_ip dst_port protocol with
      | none =>
          (.pass, bumpStats st fun g =>
            { g with passed_packets := (g.passed_packets + 1) % 2^64 })
      | some (service_key, service) =>
          let service₁ :=
            { service with packet_count := (service.packet_count + 1) % 2^64,
                           byte_count := (service.byte_count + p.len) % 2^64,
                           last_activity := now }
          let st := { st with services := updateM st.services service_key service₁ }
          let rateRes :=
            if service.rate_limit_pps > 0 then
              check_rate_limit st.rateMap now src_ip service.rate_limit_pps
            else (true, st.rateMap)
          let st := { st with rateMap := rateRes.2 }
          if rateRes.1 = false then
            (.drop, bumpStats st fun g =>
              { g with rate_limited := (g.rate_limited + 1) % 2^64,
                       dropped_packets := (g.dropped_packets + 1) % 2^64 })
          else
            let cm := update_connection_tracking st.connMap now
              src_ip dst_ip src_port dst_port protocol service_key p.len
            let st := { st with connMap := cm }
            if service.auth_type = AUTH_SIMPLE ∧
               check_authentication p st.authTokens now service_key = false then
              (.drop, bumpStats st fun g =>
                { g with auth_failures := (g.auth_failures + 1) % 2^64,
                         dropped_packets := (g.dropped_packets + 1) % 2^64 })
            else if needs_complex_processing p (some service) then
              (.redirect, bumpStats st fun g =>
                { g with redirected_go := (g.redirected_go + 1) % 2^64 })
            else
              (.pass, bumpStats st fun g =>
                { g with passed_packets := (g.passed_packets + 1) % 2^64 })

/-! ## Data model of `rate_limit.c` (standalone XDP rate limiter) -/

/-- `struct rate_limit_config` of `rate_limit.c`. -/
structure RateLimitConfig where
  enabled : Nat
  global_pps_limit : Nat
  per_ip_pps_limit : Nat
  window_size_ns : Nat
  burst_allowance : Nat
  action : Nat
deriving DecidableEq, Repr

/-- `struct ip_rate_state` of `rate_limit.c`. -/
structure IpRateState where
  last_update_ns : Nat
  packet_count : Nat
  total_packets : Nat
  dropped_packets : Nat
  burst_tokens : Nat
deriving DecidableEq, Repr

/-- `struct global_rate_state` of `rate_limit.c`. -/
structure GlobalRateState where
  last_update_ns : Nat
  packet_count : Nat
  total_packets : Nat
  dropped_packets : Nat
deriving DecidableEq, Repr

/-- `struct rate_limit_stats` of `rate_limit.c`. -/
structure RateLimitStats where
  total_packets : Nat
  passed_packets : Nat
  dropped_packets : Nat
  rate_limited_ips : Nat
  global_drops : Nat
  per_ip_drops : Nat
deriving DecidableEq, Repr

/-- XDP actions returned by `xdp_rate_limiter` and its helpers. -/
inductive XAction where
  | pass : XAction
  | drop : XAction
deriving DecidableEq, Repr

/-- The maps of `rate_limit.c`.  `gstate` and `stats` model the
single-slot array maps, `enterprise` the license flag map. -/
structure RLState where
  enterprise : Option Nat
  config : Option RateLimitConfig
  ipMap : List (Nat × IpRateState)
  gstate : Option GlobalRateState
  stats : Option RateLimitStats
deriving DecidableEq, Repr

/-- `parse_ipv4` of `rate_limit.c`: returns the source and destination
addresses of a well-formed IPv4 frame, `none` otherwise. -/
def parse_ipv4 (p : Pkt) : Option (Nat × Nat) :=
  if p.len < 14 then none
  else if p.ethProto ≠ htons ETH_P_IP then none
  else if p.len < 34 then none
  else some (p.saddr, p.daddr)

/-- `check_ip_rate_limit` of `rate_limit.c`: windowed per-source-IP
counter with burst tokens.  Returns the action and the updated
`ip_rate_state_map`. -/
def check_ip_rate_limit (cfg : RateLimitConfig) (m : List (Nat × IpRateState))
    (src_ip now_ns : Nat) : XAction × List (Nat × IpRateState) :=
  match lookupM m src_ip with
  | none =>
      (.pass, updateM m src_ip
        { last_update_ns := now_ns, packet_count := 1, total_packets := 1,
          dropped_packets := 0, burst_tokens := cfg.burst_allowance })
  | some st =>
      let elapsed_ns := (now_ns + 2^64 - st.last_update_ns) % 2^64
      let st₁ :=
        if elapsed_ns ≥ cfg.window_size_ns then
          { st with last_update_ns := now_ns, packet_count := 1,
                    burst_tokens := cfg.burst_allowance }
        else
          { st with packet_count := (st.packet_count + 1) % 2^32 }
      let st₂ := { st₁ with total_packets := (st₁.total_packets + 1) % 2^32 }
      if st₂.packet_count > cfg.per_ip_pps_limit then
        if st₂.burst_tokens > 0 then
          (.pass, updateM m src_ip { st₂ with burst_tokens := st₂.burst_tokens - 1 })
        else
          (.drop, updateM m src_ip
            { st₂ with dropped_packets := (st₂.dropped_packets + 1) % 2^32 })
      else
        (.pass, updateM m src_ip st₂)

/-- `check_global_rate_limit` of `rate_limit.c`. -/
def check_global_rate_limit (cfg : RateLimitConfig) (g : Option GlobalRateState)
    (now_ns : Nat) : XAction × Option GlobalRateState :=
  match g with
  | none =>
      (.pass, some
        { last_update_ns := now_ns, packet_count := 1, total_packets := 1,
          dropped_packets := 0 })
  | some st =>
      let elapsed_ns := (now_ns + 2^64 - st.last_update_ns) % 2^64
      let st₁ :=
        if elapsed_ns ≥ cfg.window_size_ns then
          { st with last_update_ns := now_ns, packet_count := 1 }
        else
          { st with packet_count := (st.packet_count + 1) % 2^32 }
      let st₂ := { st₁ with total_packets := (st₁.total_packets + 1) % 2^32 }
      if st₂.packet_count > cfg.global_pps_limit then
        (.drop, some { st₂ with dropped_packets := (st₂.dropped_packets + 1) % 2^32 })
      else
        (.pass, some st₂)

/-- `update_stats` of `rate_limit.c`: bumps the shared statistics slot,
distinguishing global-cause from per-IP-cause drops. -/
def rl_update_stats (stats : Option RateLimitStats) (action : XAction)
    (global_drop ip_drop : Bool) : RateLimitStats :=
  let s := stats.getD
    { total_packets := 0, passed_packets := 0, dropped_packets := 0,
      rate_limited_ips := 0, global_drops := 0, per_ip_drops := 0 }
  let s := { s with total_packets := (s.total_packets + 1) % 2^64 }
  if action = .drop then
    let s := { s with dropped_packets := (s.dropped_packets + 1) % 2^64 }
    let s := if global_drop then
      { s with global_drops := (s.global_drops + 1) % 2^64 } else s
    if ip_drop then { s with per_ip_drops := (s.per_ip_drops + 1) % 2^64 } else s
  else
    { s with passed_packets := (s.passed_packets + 1) % 2^64 }

/-- `xdp_rate_limiter` of `rate_limit.c`: license and config gates,
global check before the per-IP check, statistics update on the way out. -/
def xdp_rate_limiter (st : RLState) (p : Pkt) (now_ns : Nat) : XAction × RLState :=
  match st.enterprise with
  | none => (.pass, st)
  | some lic =>
      if lic = 0 then (.pass, st)
      else
        match st.config with
        | none => (.pass, st)
        | some cfg =>
            if cfg.enabled = 0 then (.pass, st)
            else
              match parse_ipv4 p with
              | none => (.pass, st)
              | some (src_ip, _dst_ip) =>
                  let gRes :=
                    if cfg.global_pps_limit > 0 then
                      check_global_rate_limit cfg st.gstate now_ns
                    else (.pass, st.gstate)
                  if gRes.1 = .drop then
                    let s := rl_update_stats st.stats .drop true false
                    (.drop, { st with gstate := gRes.2, stats := some s })
                  else
                    let ipRes :=
                      if cfg.per_ip_pps_limit > 0 then
                        check_ip_rate_limit cfg st.ipMap src_ip now_ns
                      else (.pass, st.ipMap)
                    let s := rl_update_stats st.stats ipRes.1 false (ipRes.1 = .drop)
                    (ipRes.1, { st with gstate := gRes.2, ipMap := ipRes.2,
                                        stats := some s })

/-! ## Data model of `filter.c` (basic XDP filter `marchproxy_filter`) -/

/-- `struct rule_key` of `filter.c`. -/
structure FRuleKey where
  src_ip : Nat
  dst_ip : Nat
  dst_port : Nat
  protocol : Nat
deriving DecidableEq, Repr

/-- `struct rule_value` of `filter.c`. -/
structure FRuleValue where
  action : Nat
  auth_required : Nat
  redirect_port : Nat
  redirect_ip : Nat
  rule_id : Nat
deriving DecidableEq, Repr

/-- Statistics slots of `filter.c`. -/
def STAT_PACKETS_PROCESSED : Nat := 0
def STAT_PACKETS_ALLOWED : Nat := 1
def STAT_PACKETS_DROPPED : Nat := 2
def STAT_PACKETS_REDIRECTED : Nat := 3
def STAT_PACKETS_TO_USERSPACE : Nat := 4
def STAT_AUTH_REQUIRED : Nat := 5

/-- The maps of `filter.c`.  Rules are keyed by the `rule_key` struct;
the statistics map associates slot indices to 64-bit counters. -/
structure FilterState where
  sourceAllow : List (Nat × Nat)
  rules : List (FRuleKey × FRuleValue)
  stats : List (Nat × Nat)
deriving DecidableEq, Repr

/-- Struct-keyed variant of `bpf_map_lookup_elem` for the rules map. -/
def lookupR (m : List (FRuleKey × FRuleValue)) (k : FRuleKey) : Option FRuleValue :=
  match m with
  | [] => none
  | (k₀, v) :: rest => if k₀ = k then some v else lookupR rest k

/-- `update_stat` of `filter.c`: increments the counter slot when it is
present in the per-CPU array. -/
def update_stat (m : List (Nat × Nat)) (k : Nat) : List (Nat × Nat) :=
  match lookupM m k with
  | some c => updateM m k ((c + 1) % 2^64)
  | none => m

/-- `marchproxy_filter` of `filter.c`: parse, rule lookup, source
allowlist fallback, and the action switch.  Returns the XDP action and
the updated statistics. -/
def marchproxy_filter (st : FilterState) (p : Pkt) : XAction × FilterState :=
  let st := { st with stats := update_stat st.stats STAT_PACKETS_PROCESSED }
  if p.len < 14 ∨ ntohs p.ethProto ≠ ETH_P_IP then
    (.pass, { st with stats := update_stat st.stats STAT_PACKETS_TO_USERSPACE })
  else if p.len < 34 ∨ p.ipVersion ≠ 4 ∨ p.ihl < 5 ∨ p.len < 14 + p.ihl * 4 then
    (.drop, { st with stats := update_stat st.stats STAT_PACKETS_DROPPED })
  else
    let tOff := 14 + p.ihl * 4
    let dstPort :=
      if p.ipProto = PROTO_TCP then
        if p.len < tOff + 20 then none else some (ntohs p.tcpDest)
      else if p.ipProto = PROTO_UDP then
        if p.len < tOff + 8 then none else some (ntohs p.udpDest)
      else if p.ipProto = PROTO_ICMP then some 0
      else none
    match dstPort with
    | none =>
        (.pass, { st with stats := update_stat st.stats STAT_PACKETS_TO_USERSPACE })
    | some dp =>
        let key : FRuleKey :=
          { src_ip := p.saddr, dst_ip := p.daddr, dst_port := dp,
            protocol := p.ipProto }
        match lookupR st.rules key with
        | none =>
            match lookupM st.sourceAllow key.src_ip with
            | none =>
                (.drop, { st with stats := update_stat st.stats STAT_PACKETS_DROPPED })
            | some _ =>
                (.pass, { st with stats := update_stat st.stats STAT_PACKETS_TO_USERSPACE })
        | some rule =>
            if rule.action = 0 then
              (.drop, { st with stats := update_stat st.stats STAT_PACKETS_DROPPED })
            else if rule.action = 1 then
              if rule.auth_required ≠ 0 then
                (.pass, { st with stats := update_stat st.stats STAT_AUTH_REQUIRED })
              else
                (.pass, { st with stats := update_stat st.stats STAT_PACKETS_ALLOWED })
            else if rule.action = 2 then
              (.pass, { st with stats := update_stat st.stats STAT_PACKETS_REDIRECTED })
            else
              (.pass, { st with stats := update_stat st.stats STAT_PACKETS_TO_USERSPACE })

/-! ## Derived definitions used by the claims -/

/-- Absolute offset of the TCP payload:
`(char *)tcp + tcp->doff * 4` with `tcp` at `14 + ip->ihl * 4`. -/
def payOff (p : Pkt) : Nat := 14 + p.ihl * 4 + p.tcpDoff * 4

/-- Invariant of the `enhanced_rules.c` token bucket: every stored entry
holds at most `limit` tokens. -/
def RateInv (limit : Nat) (m : List (Nat × RateLimitEntry)) : Prop :=
  ∀ kv ∈ m, kv.2.tokens ≤ limit

/-- A sequence of `check_rate_limit` updates (each step is a packet
arrival carrying its timestamp and bucket key). -/
def runRate (limit : Nat) (steps : List (Nat × Nat))
    (m : List (Nat × RateLimitEntry)) : List (Nat × RateLimitEntry) :=
  steps.foldl (fun acc s => (check_rate_limit acc s.1 s.2 limit).2) m

/-- A sequence of `check_ip_rate_limit` calls for one source, returning
the verdicts in order together with the final map. -/
def runIp (cfg : RateLimitConfig) (src : Nat) (ts : List Nat)
    (m : List (Nat × IpRateState)) : List XAction × List (Nat × IpRateState) :=
  match ts with
  | [] => ([], m)
  | t :: rest =>
      let r := check_ip_rate_limit cfg m src t
      let rr := runIp cfg src rest r.2
      (r.1 :: rr.1, rr.2)

/-- The per-IP state after `i` in-window packets whose first arrival was
at `t0` (the closed form reached by `check_ip_rate_limit`). -/
def ipInv (cfg : RateLimitConfig) (t0 i : Nat) : IpRateState :=
  { last_update_ns := t0, packet_count := i, total_packets := i,
    dropped_packets := 0,
    burst_tokens := cfg.burst_allowance -
      (min i (cfg.per_ip_pps_limit + cfg.burst_allowance) - min i cfg.per_ip_pps_limit) }

/-! ## Concrete packets and states for witnesses and counterexamples -/

/-- A well-formed 86-byte TCP/IPv4 frame (14+20+20 header bytes and 32
zero payload bytes): full headers, no `Auth` marker in the payload. -/
def pTcp86 : Pkt :=
  { bytes := List.replicate 86 0, ethProto := htons ETH_P_IP, ipVersion := 4,
    ihl := 5, ipProto := 6, saddr := 0x0a000001, daddr := 0x0a000005,
    tcpSource := 0x3039, tcpDest := 0x1f90, tcpDoff := 5,
    udpSource := 0, udpDest := 0, icmpType := 0 }

/-- Like `pTcp86` but the payload carries an `Auth` marker at offset 0
and the token-hash bytes `42 0 0 0` at payload offset 20. -/
def pAuth86 : Pkt :=
  { bytes := List.replicate 54 0 ++
      ([65, 117, 116, 104] ++ List.replicate 16 0 ++ [42, 0, 0, 0] ++ List.replicate 8 0),
    ethProto := htons ETH_P_IP, ipVersion := 4,
    ihl := 5, ipProto := 6, saddr := 0x0a000001, daddr := 0x0a000005,
    tcpSource := 0x3039, tcpDest := 0x1f90, tcpDoff := 5,
    udpSource := 0, udpDest := 0, icmpType := 0 }

/-- A TCP/IPv4 frame with full headers but only 10 payload bytes
(64 bytes in total): too short for the 32-byte auth window. -/
def pShort64 : Pkt :=
  { bytes := List.replicate 64 0, ethProto := htons ETH_P_IP, ipVersion := 4,
    ihl := 5, ipProto := 6, saddr := 0x0a000001, daddr := 0x0a000005,
    tcpSource := 0x3039, tcpDest := 0x1f90, tcpDoff := 5,
    udpSource := 0, udpDest := 0, icmpType := 0 }

/-- A TCP/IPv4 frame to port 8080 whose 6-byte payload starts with the
TLS record bytes `0x17 0x03 0x01` (Application Data, TLS 1.0). -/
def pTls17 : Pkt :=
  { bytes := List.replicate 54 0 ++ [0x17, 0x03, 0x01, 0, 0, 0],
    ethProto := htons ETH_P_IP, ipVersion := 4,
    ihl := 5, ipProto := 6, saddr := 0x0a000001, daddr := 0x0a000005,
    tcpSource := 0x3039, tcpDest := 0x901f, tcpDoff := 5,
    udpSource := 0, udpDest := 0, icmpType := 0 }

/-- A 40-byte IPv4/TCP frame: the IPv4 header is complete (version 4,
ihl 5) and declares protocol TCP, but the buffer ends 14 bytes short of
the 20-byte TCP header. -/
def pTrunc40 : Pkt :=
  { bytes := List.replicate 40 0, ethProto := htons ETH_P_IP, ipVersion := 4,
    ihl := 5, ipProto := 6, saddr := 0x0a000001, daddr := 0x0a000005,
    tcpSource := 0, tcpDest := 0, tcpDoff := 5,
    udpSource := 0, udpDest := 0, icmpType := 0 }

/-- A minimal 34-byte IPv4 frame (Ethernet + IPv4 header only). -/
def pIp34 : Pkt :=
  { bytes := List.replicate 34 0, ethProto := htons ETH_P_IP, ipVersion := 4,
    ihl := 5, ipProto := 6, saddr := 0x0a000001, daddr := 0x0a000005,
    tcpSource := 0, tcpDest := 0, tcpDoff := 5,
    udpSource := 0, udpDest := 0, icmpType := 0 }

/-- A service with simple authentication, no rate limit and no
deep-processing flags, matching any destination port and protocol at
`10.0.0.5`. -/
def svcAuth : Service :=
  { service_id := 1, ip_addr := 0x0a000005, port_start := 0, port_end := 65535,
    protocol := 0, auth_type := AUTH_SIMPLE, requires_tls := 0,
    allows_websocket := 0, rate_limit_pps := 0, bandwidth_limit := 0,
    last_activity := 0, packet_count := 0, byte_count := 0 }

/-- A flag-free service (no TLS, no WebSocket, no auth, no rate limit). -/
def svcPlain : Service :=
  { service_id := 2, ip_addr := 0x0a000005, port_start := 0, port_end := 65535,
    protocol := 0, auth_type := AUTH_NONE, requires_tls := 0,
    allows_websocket := 0, rate_limit_pps := 0, bandwidth_limit := 0,
    last_activity := 0, packet_count := 0, byte_count := 0 }

/-- All-zero statistics slot of the enhanced engine. -/
def gZero : GlobalStats :=
  { total_packets := 0, passed_packets := 0, dropped_packets := 0,
    redirected_afxdp := 0, redirected_go := 0, rate_limited := 0,
    auth_failures := 0, invalid_packets := 0, last_update := 0 }

/-- Engine state exposing `svcAuth` at service key 1, with empty
connection, rate and token tables. -/
def stAuth : EngState :=
  { services := [(1, svcAuth)], rateMap := [], connMap := [],
    authTokens := [], stats := some gZero }

/-- Rate-limiter configuration: limits 1 pps globally and per IP, one
burst token, one-second window. -/
def cfgRL : RateLimitConfig :=
  { enabled := 1, global_pps_limit := 1, per_ip_pps_limit := 1,
    window_size_ns := 1000000000, burst_allowance := 1, action := 1 }

/-- All-zero statistics slot of the standalone rate limiter. -/
def rlZero : RateLimitStats :=
  { total_packets := 0, passed_packets := 0, dropped_packets := 0,
    rate_limited_ips := 0, global_drops := 0, per_ip_drops := 0 }

/-- Licensed, enabled rate-limiter state whose global window already
counted one packet at time 0. -/
def stRL : RLState :=
  { enterprise := some 1, config := some cfgRL, ipMap := [],
    gstate := some { last_update_ns := 0, packet_count := 1, total_packets := 1,
                     dropped_packets := 0 },
    stats := some rlZero }

/-- A token valid for any service until time 1000, with hash 42. -/
def tok42 : AuthToken :=
  { token_hash := 42, service_id := 0, expiry_time := 1000, permissions := 0 }

/-- A service stored under map key 0, outside the `1 .. MAX_SERVICES`
scan range of the service-lookup loop. -/
def svcAtKey0 : List (Nat × Service) := [(0, svcPlain)]

/-- Filter state for `marchproxy_filter` with empty rule and allowlist
maps and all statistics slots present. -/
def stFilter : FilterState :=
  { sourceAllow := [], rules := [],
    stats := [(0, 0), (1, 0), (2, 0), (3, 0), (4, 0), (5, 0)] }

/-- Licensed rate-limiter state with the enterprise flag absent. -/
def stRLoff : RLState :=
  { enterprise := none, config := some cfgRL, ipMap := [(3, ipInv cfgRL 0 1)],
    gstate := none, stats := some rlZero }

/-! ## Helper lemmas about the association-list maps -/

theorem lookupM_mem {V : Type} :
    ∀ {m : List (Nat × V)} {k : Nat} {v : V}, lookupM m k = some v → (k, v) ∈ m := by
  intro m
  induction m with
  | nil => intro k v h; simp [lookupM] at h
  | cons kv rest ih =>
      intro k v h
      obtain ⟨k₀, v₀⟩ := kv
      by_cases hk : k₀ = k
      · subst hk
        simp [lookupM] at h
        subst h
        exact List.mem_cons_self _ _
      · rw [lookupM, if_neg hk] at h
        exact List.mem_cons_of_mem _ (ih h)

theorem mem_updateM {V : Type} :
    ∀ {m : List (Nat × V)} {k : Nat} {v : V} {kv : Nat × V},
      kv ∈ updateM m k v → kv ∈ m ∨ kv = (k, v) := by
  intro m
  induction m with
  | nil => intro k v kv h; simp [updateM] at h; exact Or.inr h
  | cons kv₀ rest ih =>
      intro k v kv h
      obtain ⟨k₀, v₀⟩ := kv₀
      by_cases hk : k₀ = k
      · rw [updateM, if_pos hk] at h
        rcases List.mem_cons.mp h with h | h
        · exact Or.inr h
        · exact Or.inl (List.mem_cons_of_mem _ h)
      · rw [updateM, if_neg hk] at h
        rcases List.mem_cons.mp h with h | h
        · exact Or.inl (h ▸ List.mem_cons_self _ _)
        · rcases ih h with h | h
          · exact Or.inl (List.mem_cons_of_mem _ h)
          · exact Or.inr h

theorem lookupM_updateM_self {V : Type} :
    ∀ {m : List (Nat × V)} {k : Nat} {v : V}, lookupM (updateM m k v) k = some v := by
  intro m
  induction m with
  | nil => intro k v; simp [updateM, lookupM]
  | cons kv₀ rest ih =>
      intro k v
      obtain ⟨k₀, v₀⟩ := kv₀
      by_cases hk : k₀ = k
      · rw [updateM, if_pos hk, lookupM, if_pos rfl]
      · rw [updateM, if_neg hk, lookupM, if_neg hk]
        exact ih

/-! ## Claim C2 -/

theorem RateInv_updateM {limit : Nat} {m : List (Nat × RateLimitEntry)}
    (hm : RateInv limit m) {k : Nat} {v : RateLimitEntry} (hv : v.tokens ≤ limit) :
    RateInv limit (updateM m k v) := by
  intro kv hkv
  rcases mem_updateM hkv with h | h
  · exact hm kv h
  · subst h; exact hv

theorem refillEntry_tokens_le {limit : Nat} {e : RateLimitEntry}
    (he : e.tokens ≤ limit) (now : Nat) : (refillEntry e now limit).tokens ≤ limit := by
  unfold refillEntry
  dsimp only
  split
  · dsimp only
    split
    · omega
    · omega
  · exact he

theorem check_rate_limit_inv {limit : Nat} (hlim : 1 ≤ limit) (hlt : limit < 2^32)
    {m : List (Nat × RateLimitEntry)} (hm : RateInv limit m) (now key : Nat) :
    RateInv limit (check_rate_limit m now key limit).2 := by
  unfold check_rate_limit
  cases hL : lookupM m key with
  | none =>
      intro kv hkv
      rcases mem_updateM hkv with h | h
      · exact hm kv h
      · subst h
        show (limit + 2^32 - 1) % 2^32 ≤ limit
        omega
  | some e =>
      have he : (refillEntry e now limit).tokens ≤ limit :=
        refillEntry_tokens_le (hm (key, e) (lookupM_mem hL)) now
      dsimp only
      split
      · exact RateInv_updateM hm (by dsimp only; omega)
      · exact RateInv_updateM hm he

/-- C2: in the `enhanced_rules.c` token bucket, for every bucket and
every sequence of packet-triggered updates the token count never
exceeds the configured capacity.  In this engine the bucket has no
burst component (the engine invokes `check_rate_limit` with the
service's `rate_limit_pps` only, a positive 32-bit rate), so the
capacity `burst_allowance + rate` equals the rate `limit` itself, and
every refill adds `elapsed * rate / 10^9` tokens capped at that
capacity. -/
theorem c2_tokens_bounded (limit : Nat) (hlim : 1 ≤ limit) (hlt : limit < 2^32)
    (steps : List (Nat × Nat)) (m₀ : List (Nat × RateLimitEntry))
    (h₀ : RateInv limit m₀) : RateInv limit (runRate limit steps m₀) := by
  induction steps generalizing m₀ with
  | nil => exact h₀
  | cons s rest ih =>
      have h₁ := check_rate_limit_inv hlim hlt h₀ s.1 s.2
      simpa [runRate, List.foldl_cons] using ih _ h₁

/-- Witness for C2: two updates (a creation and a refill a second
later) of a rate-1 bucket keep every token count at or below 1. -/
theorem c2_tokens_bounded_witness :
    RateInv 1 (runRate 1 [(0, 5), (1000000000, 5)] []) :=
  c2_tokens_bounded 1 (by decide) (by decide) _ _ (by intro kv hkv; cases hkv)

/-! ## Claim C9 -/

/-- C9: with the enterprise license absent or zero, or the rate-limit
configuration absent or disabled, `xdp_rate_limiter` passes every
packet and leaves the whole state — including the global and per-IP
rate maps and the statistics — untouched (the equation holds for all
values of those maps, so none of them is consulted). -/
theorem c9_disabled_inert (st : RLState) (p : Pkt) (now : Nat)
    (h : st.enterprise = none ∨ st.enterprise = some 0 ∨ st.config = none ∨
         ∃ cfg, st.config = some cfg ∧ cfg.enabled = 0) :
    xdp_rate_limiter st p now = (.pass, st) := by
  rcases h with h | h | h | ⟨cfg, hc, he⟩
  · simp [xdp_rate_limiter, h]
  · simp [xdp_rate_limiter, h]
  · cases hl : st.enterprise with
    | none => simp [xdp_rate_limiter, hl]
    | some lic =>
        by_cases h0 : lic = 0
        · simp [xdp_rate_limiter, hl, h0]
        · simp [xdp_rate_limiter, hl, h0, h]
  · cases hl : st.enterprise with
    | none => simp [xdp_rate_limiter, hl]
    | some lic =>
        by_cases h0 : lic = 0
        · simp [xdp_rate_limiter, hl, h0]
        · simp [xdp_rate_limiter, hl, h0, hc, he]

/-- Witness for C9: a state with no enterprise flag but a populated
per-IP map passes an IPv4 packet unchanged. -/
theorem c9_disabled_inert_witness :
    xdp_rate_limiter stRLoff pIp34 5 = (.pass, stRLoff) :=
  c9_disabled_inert stRLoff pIp34 5 (Or.inl rfl)

/-! ## Claim C10 -/

/-- C10: connection tracking keys entries solely by the 32-bit XOR hash
of the 5-tuple and never compares the stored tuple: the two distinct
5-tuples `(1.0.0.1 → 1.0.0.2, 10 → 20, TCP)` and its address-swapped
mirror collide, and processing one packet of each creates a single
shared connection entry whose packet counter merges both flows. -/
theorem c10_hash_collision_merges_flows :
    (1, 2, 10, 20, 6) ≠ ((2 : Nat), (1 : Nat), (10 : Nat), (20 : Nat), (6 : Nat)) ∧
    hash_connection 1 2 10 20 6 = hash_connection 2 1 10 20 6 ∧
    (update_connection_tracking
      (update_connection_tracking [] 100 1 2 10 20 6 9 60) 200 2 1 10 20 6 9 60).length = 1 ∧
    (lookupM (update_connection_tracking
        (update_connection_tracking [] 100 1 2 10 20 6 9 60) 200 2 1 10 20 6 9 60)
      (hash_connection 1 2 10 20 6)).map
        (fun c => (c.packets_rx, c.src_ip, c.dst_ip)) = some (2, 1, 2) := by
  refine ⟨by decide, by decide, by decide, by decide⟩

/-! ## Claim C7 -/

/-- C7: the global rate check runs first, and a global rejection
short-circuits: the verdict is DROP, the per-IP map is returned exactly
as it was (and, the equation holding for every value of `st.ipMap`, the
per-IP bucket is never consulted), and the statistics bump
`global_drops` while `per_ip_drops` stays untouched. -/
theorem c7_global_short_circuit (st : RLState) (p : Pkt) (now : Nat)
    (lic : Nat) (cfg : RateLimitConfig) (s : RateLimitStats)
    (hl : st.enterprise = some lic) (hl0 : lic ≠ 0)
    (hc : st.config = some cfg) (he : cfg.enabled ≠ 0)
    (hg : 0 < cfg.global_pps_limit)
    (hp : parse_ipv4 p ≠ none)
    (hs : st.stats = some s)
    (hdrop : (check_global_rate_limit cfg st.gstate now).1 = .drop) :
    xdp_rate_limiter st p now =
      (.drop, { st with gstate := (check_global_rate_limit cfg st.gstate now).2,
                        stats := some { s with
                          total_packets := (s.total_packets + 1) % 2^64,
                          dropped_packets := (s.dropped_packets + 1) % 2^64,
                          global_drops := (s.global_drops + 1) % 2^64 } }) := by
  cases hpp : parse_ipv4 p with
  | none => exact absurd hpp hp
  | some sd =>
      obtain ⟨src, dst⟩ := sd
      simp only [xdp_rate_limiter, hl, hl0, hc, hpp, if_neg hl0, if_neg he]
      rw [if_pos hg, if_pos hdrop]
      simp [rl_update_stats, hs, hdrop]

/-- Witness for C7: with a 1-pps global limit whose window already
counted one packet, a second packet at t=5ns is dropped by the global
check, the per-IP map stays empty, and only the global-drop counter is
bumped. -/
theorem c7_global_short_circuit_witness :
    (xdp_rate_limiter stRL pIp34 5).1 = .drop ∧
    (xdp_rate_limiter stRL pIp34 5).2.ipMap = stRL.ipMap ∧
    ((xdp_rate_limiter stRL pIp34 5).2.stats).map
      (fun s => (s.global_drops, s.per_ip_drops)) = some (1, 0) := by
  have h := c7_global_short_circuit stRL pIp34 5 1 cfgRL rlZero rfl (by decide) rfl
    (by decide) (by decide) (by decide) rfl (by decide)
  rw [h]
  refine ⟨rfl, rfl, by decide⟩

/-! ## Claim C6 -/

/-- C6 (amended): the L7 sniffer `detect_tls` classifies TLS exactly
when at least 3 payload bytes are available and
`byte[0] ∈ {0x16, 0x17} ∧ byte[1] = 0x03 ∧ byte[2] ∈ [0x01, 0x04]`;
with fewer bytes it returns false (not-TLS), not a distinct unknown.
The egress fast-path TLS check inside `needs_complex_processing`
instead requires 6 available payload bytes and tests only
`byte[0] = 0x16 ∧ byte[1] = 0x03` (0x17 is not recognized and byte[2]
is never examined), likewise yielding false (simple processing) on
short payloads. -/
theorem c6_tls_sniffer (p : Pkt) :
    (∀ off : Nat,
       detect_tls p off = true ↔
         (off + 3 ≤ p.len ∧ (p.byteAt off = 0x16 ∨ p.byteAt off = 0x17) ∧
          p.byteAt (off + 1) = 0x03 ∧ 1 ≤ p.byteAt (off + 2) ∧ p.byteAt (off + 2) ≤ 4)) ∧
    (∀ s : Service,
       s.requires_tls = 0 → s.allows_websocket = 0 → s.auth_type ≠ AUTH_COMPLEX →
       ¬ p.len < 14 → p.ethProto = htons ETH_P_IP → ¬ p.len < 34 →
       p.ipProto = PROTO_TCP → ¬ p.len < 14 + p.ihl * 4 + 20 →
       ntohs p.tcpDest ≠ 443 →
       ¬ (p.byteAt (payOff p) = 71 ∧ p.byteAt (payOff p + 1) = 69 ∧
          p.byteAt (payOff p + 2) = 84) →
       (needs_complex_processing p (some s) = true ↔
         (payOff p + 6 ≤ p.len ∧ p.byteAt (payOff p) = 0x16 ∧
          p.byteAt (payOff p + 1) = 0x03))) := by
  constructor
  · intro off
    by_cases h1 : off + 3 > p.len
    · simp only [detect_tls, if_pos h1]
      constructor
      · intro h; cases h
      · intro h; omega
    · by_cases h2 : (p.byteAt off = 0x16 ∨ p.byteAt off = 0x17) ∧
        p.byteAt (off + 1) = 0x03 ∧ (0x01 ≤ p.byteAt (off + 2) ∧ p.byteAt (off + 2) ≤ 0x04)
      · simp only [detect_tls, if_neg h1, if_pos h2]
        constructor
        · intro _
          exact ⟨by omega, h2.1, h2.2.1, h2.2.2.1, h2.2.2.2⟩
        · intro _; trivial
      · simp only [detect_tls, if_neg h1, if_neg h2]
        constructor
        · intro h; cases h
        · intro hr; exact absurd ⟨hr.2.1, hr.2.2.1, hr.2.2.2.1, hr.2.2.2.2⟩ h2
  · intro s h1 h2 h3 h14 hip h34 htcp hlen h443 hget
    unfold needs_complex_processing
    dsimp only
    rw [if_neg (fun hh => hh h1), if_neg (fun hh => hh h2), if_neg h3, if_neg h14,
      if_neg (fun hh => hh hip), if_neg h34, if_pos htcp, if_neg hlen, if_neg h443]
    by_cases h6 : 14 + p.ihl * 4 + p.tcpDoff * 4 + 6 ≤ p.len
    · rw [if_pos h6]
      by_cases hT : p.byteAt (14 + p.ihl * 4 + p.tcpDoff * 4) = 0x16 ∧
          p.byteAt (14 + p.ihl * 4 + p.tcpDoff * 4 + 1) = 0x03
      · rw [if_pos hT]
        simp only [payOff]
        constructor
        · intro _; exact ⟨h6, hT.1, hT.2⟩
        · intro _; trivial
      · rw [if_neg hT, if_neg (by simpa [payOff] using hget)]
        simp only [payOff]
        constructor
        · intro h; cases h
        · intro hr; exact absurd ⟨hr.2.1, hr.2.2⟩ hT
    · rw [if_neg h6]
      simp only [payOff]
      constructor
      · intro h; cases h
      · intro hr; exact absurd hr.1 h6

/-- Counterexample for C6: `pTls17` carries a 6-byte payload starting
`0x17 0x03 0x01` — the exact spec pattern for a TLS/HTTPS record — at
payload offset 54, yet the engine's fast-path check
(`needs_complex_processing`, the cited code) does not classify it as
needing TLS processing. -/
theorem c6_counterexample :
    (54 + 3 ≤ pTls17.len ∧ pTls17.byteAt 54 = 0x17 ∧ pTls17.byteAt 55 = 0x03 ∧
     pTls17.byteAt 56 = 0x01 ∧ payOff pTls17 = 54) ∧
    detect_tls pTls17 54 = true ∧
    needs_complex_processing pTls17 (some svcPlain) = false := by
  refine ⟨by decide, by decide, by decide⟩

/-- Witness for C6: the flag-free service and the all-zero payload of
`pTcp86` instantiate the amended characterization — the fast-path check
reports simple processing. -/
theorem c6_tls_sniffer_witness :
    needs_complex_processing pTcp86 (some svcPlain) = false := by
  have h := (c6_tls_sniffer pTcp86).2 svcPlain rfl rfl (by decide) (by decide) rfl
    (by decide) rfl (by decide) (by decide) (by decide)
  have hr : ¬ (payOff pTcp86 + 6 ≤ pTcp86.len ∧ pTcp86.byteAt (payOff pTcp86) = 0x16 ∧
      pTcp86.byteAt (payOff pTcp86 + 1) = 0x03) := by decide
  exact Bool.eq_false_iff.mpr (fun ht => hr (h.mp ht))

/-! ## Claim C5 -/

/-- C5 (amended): for a TCP/IPv4 packet with complete headers and at
least 32 available payload bytes, the fast-path auth checker accepts
iff the scanned token hash is nonzero and is present in the AuthToken
table, the token is unexpired (`now ≤ expiry_time`), and the token's
`service_id` is 0 or equals the requesting service.  (Packets that are
non-IP, non-TCP, or expose fewer than 32 payload bytes are accepted
without any token lookup, and truncated headers are rejected — see the
counterexample.) -/
theorem c5_auth_characterization (p : Pkt) (toks : List (Nat × AuthToken))
    (now sid : Nat)
    (h14 : ¬ p.len < 14) (hip : p.ethProto = htons ETH_P_IP) (h34 : ¬ p.len < 34)
    (htcp : p.ipProto = PROTO_TCP) (hlen : ¬ p.len < 14 + p.ihl * 4 + 20)
    (hpay : ¬ (payOff p + 32 > p.len)) :
    check_authentication p toks now sid = true ↔
      (scanAuth p (payOff p) ≠ 0 ∧
       ∃ tok, lookupM toks (scanAuth p (payOff p)) = some tok ∧
         now ≤ tok.expiry_time ∧ (tok.service_id = 0 ∨ tok.service_id = sid)) := by
  unfold check_authentication
  dsimp only
  rw [if_neg h14, if_neg (fun hh => hh hip), if_neg h34, if_neg (fun hh => hh htcp),
    if_neg hlen, if_neg (by simpa [payOff] using hpay)]
  simp only [payOff]
  by_cases h0 : scanAuth p (14 + p.ihl * 4 + p.tcpDoff * 4) = 0
  · rw [if_pos h0]
    constructor
    · intro h; cases h
    · intro hr; exact absurd h0 hr.1
  · rw [if_neg h0]
    cases hL : lookupM toks (scanAuth p (14 + p.ihl * 4 + p.tcpDoff * 4)) with
    | none =>
        constructor
        · intro h; cases h
        · rintro ⟨-, tok, htok, -⟩
          cases htok
    | some tok =>
        dsimp only
        by_cases hexp : now > tok.expiry_time
        · rw [if_pos hexp]
          constructor
          · intro h; cases h
          · rintro ⟨-, tok₁, htok, hnow, -⟩
            cases htok
            omega
        · rw [if_neg hexp]
          by_cases hsvc : tok.service_id ≠ sid ∧ tok.service_id ≠ 0
          · rw [if_pos hsvc]
            constructor
            · intro h; cases h
            · rintro ⟨-, tok₁, htok, -, hid⟩
              cases htok
              rcases hid with h | h
              · exact absurd h hsvc.2
              · exact absurd h hsvc.1
          · rw [if_neg hsvc]
            constructor
            · intro _
              refine ⟨h0, tok, rfl, by omega, ?_⟩
              by_cases hz : tok.service_id = 0
              · exact Or.inl hz
              · exact Or.inr (by tauto)
            · intro _; rfl

/-- Counterexample for C5: `pShort64` is a well-formed TCP packet whose
payload is only 10 bytes, so the 32-byte auth window does not fit; the
checker accepts it although the token table is empty (the claim demands
reject on every table miss). -/
theorem c5_counterexample :
    (payOff pShort64 + 32 > pShort64.len) ∧
    lookupM ([] : List (Nat × AuthToken)) (scanAuth pShort64 (payOff pShort64)) = none ∧
    check_authentication pShort64 [] 0 7 = true := by
  refine ⟨by decide, by decide, by decide⟩

/-- Witness for C5: `pAuth86` carries an `Auth` marker with hash 42;
with token 42 unexpired and service-wildcarded, the checker accepts. -/
theorem c5_auth_characterization_witness :
    check_authentication pAuth86 [(42, tok42)] 100 7 = true := by
  have h := c5_auth_characterization pAuth86 [(42, tok42)] 100 7 (by decide) rfl
    (by decide) rfl (by decide) (by decide)
  exact h.mpr ⟨by decide, tok42, by decide, by decide, Or.inl rfl⟩

/-! ## Claim C8 -/

theorem findSvcFrom_some_iff (svcs : List (Nat × Service)) (d dp pr : Nat) :
    ∀ (fuel start k : Nat) (s : Service),
      findSvcFrom svcs d dp pr start fuel = some (k, s) ↔
        (start ≤ k ∧ k < start + fuel ∧ lookupM svcs k = some s ∧
         svcMatch s d dp pr = true ∧
         ∀ j, start ≤ j → j < k → ∀ s₁, lookupM svcs j = some s₁ →
           svcMatch s₁ d dp pr = false) := by
  intro fuel
  induction fuel with
  | zero =>
      intro start k s
      constructor
      · intro h; cases h
      · rintro ⟨h1, h2, -⟩
        exact (by omega : False).elim
  | succ fuel ih =>
      intro start k s
      rw [findSvcFrom]
      cases hL : lookupM svcs start with
      | some s₀ =>
          dsimp only
          by_cases hMatch : svcMatch s₀ d dp pr = true
          · rw [if_pos hMatch]
            constructor
            · intro h
              injection h with h₁
              injection h₁ with hk hs
              subst hk; subst hs
              refine ⟨le_refl _, by omega, hL, hMatch, ?_⟩
              intro j hj1 hj2 s₁ _
              exact (by omega : False).elim
            · rintro ⟨h1, h2, h3, h4, h5⟩
              have hk : k = start := by
                by_contra hne
                have hlt : start < k := by omega
                have hfalse := h5 start (le_refl _) hlt s₀ hL
                rw [hMatch] at hfalse
                cases hfalse
              subst hk
              rw [hL] at h3
              injection h3 with h3
              subst h3
              rfl
          · rw [if_neg hMatch]
            rw [ih (start + 1) k s]
            constructor
            · rintro ⟨h1, h2, h3, h4, h5⟩
              refine ⟨by omega, by omega, h3, h4, ?_⟩
              intro j hj1 hj2 s₁ hj
              by_cases hjs : j = start
              · subst hjs
                rw [hL] at hj
                injection hj with hj
                subst hj
                exact Bool.eq_false_iff.mpr hMatch
              · exact h5 j (by omega) hj2 s₁ hj
            · rintro ⟨h1, h2, h3, h4, h5⟩
              have hk : k ≠ start := by
                intro hke
                subst hke
                rw [hL] at h3
                injection h3 with h3
                subst h3
                exact hMatch h4
              refine ⟨by omega, by omega, h3, h4, ?_⟩
              intro j hj1 hj2 s₁ hj
              exact h5 j (by omega) hj2 s₁ hj
      | none =>
          dsimp only
          rw [ih (start + 1) k s]
          constructor
          · rintro ⟨h1, h2, h3, h4, h5⟩
            refine ⟨by omega, by omega, h3, h4, ?_⟩
            intro j hj1 hj2 s₁ hj
            by_cases hjs : j = start
            · subst hjs
              rw [hL] at hj
              cases hj
            · exact h5 j (by omega) hj2 s₁ hj
          · rintro ⟨h1, h2, h3, h4, h5⟩
            have hk : k ≠ start := by
              intro hke
              subst hke
              rw [hL] at h3
              cases h3
            refine ⟨by omega, by omega, h3, h4, ?_⟩
            intro j hj1 hj2 s₁ hj
            exact h5 j (by omega) hj2 s₁ hj

/-- C8 (amended): the service-lookup loop returns `(k, s)` iff `k` is a
key in the scanned range `1 .. MAX_SERVICES` holding service `s` that
matches the destination (exact `ip_addr`, `dst_port` within
`[port_start, port_end]`, protocol 0 or equal), and no smaller key in
that range holds a matching service.  Matching services stored under
keys outside `1 .. MAX_SERVICES` are never found (see the
counterexample). -/
theorem c8_find_service (svcs : List (Nat × Service)) (d dp pr k : Nat) (s : Service) :
    findService svcs d dp pr = some (k, s) ↔
      (1 ≤ k ∧ k ≤ MAX_SERVICES ∧ lookupM svcs k = some s ∧
       svcMatch s d dp pr = true ∧
       ∀ j, 1 ≤ j → j < k → ∀ s₁, lookupM svcs j = some s₁ →
         svcMatch s₁ d dp pr = false) := by
  unfold findService
  rw [findSvcFrom_some_iff]
  simp only [MAX_SERVICES]
  constructor
  · rintro ⟨h1, h2, h3, h4, h5⟩
    exact ⟨h1, by omega, h3, h4, h5⟩
  · rintro ⟨h1, h2, h3, h4, h5⟩
    exact ⟨h1, by omega, h3, h4, h5⟩

set_option maxRecDepth 8192 in
/-- Counterexample for C8: a service matching the packet destination
but stored under map key 0 is never returned — the loop scans only keys
`1 .. MAX_SERVICES`, so `find_service` is not an `iff` over all
configured services. -/
theorem c8_counterexample :
    svcMatch svcPlain 0x0a000005 80 6 = true ∧
    lookupM svcAtKey0 0 = some svcPlain ∧
    findService svcAtKey0 0x0a000005 80 6 = none := by
  refine ⟨by decide, by decide, by decide⟩

/-- Witness for C8: a matching service stored at key 3 is found by the
loop, via the amended characterization. -/
theorem c8_find_service_witness :
    findService [(3, svcPlain)] 0x0a000005 80 6 = some (3, svcPlain) := by
  have h := c8_find_service [(3, svcPlain)] 0x0a000005 80 6 3 svcPlain
  refine h.mpr ⟨by decide, by decide, by decide, by decide, ?_⟩
  intro j hj1 hj2 s₁ hjl
  have hnone : lookupM [(3, svcPlain)] j = none := by
    simp [lookupM]
    omega
  rw [hnone] at hjl
  cases hjl

/-! ## Claim C3 -/

theorem ip_step_inwindow (cfg : RateLimitConfig) (m : List (Nat × IpRateState))
    (src t t0 i : Nat)
    (hi : 1 ≤ i) (hR : 1 ≤ cfg.per_ip_pps_limit)
    (hcap : i + 1 ≤ cfg.per_ip_pps_limit + cfg.burst_allowance)
    (hovf : cfg.per_ip_pps_limit + cfg.burst_allowance + 1 < 2^32)
    (ht0 : t0 ≤ t) (htw : t - t0 < cfg.window_size_ns)
    (hm : lookupM m src = some (ipInv cfg t0 i)) :
    check_ip_rate_limit cfg m src t = (.pass, updateM m src (ipInv cfg t0 (i + 1))) := by
  unfold check_ip_rate_limit
  rw [hm]
  dsimp only [ipInv]
  rw [if_neg (show ¬ ((t + 2^64 - t0) % 2^64 ≥ cfg.window_size_ns) from by omega)]
  dsimp only
  by_cases hgt : i + 1 > cfg.per_ip_pps_limit
  · rw [if_pos (show (i + 1) % 2^32 > cfg.per_ip_pps_limit from by omega)]
    rw [if_pos (show cfg.burst_allowance -
        (min i (cfg.per_ip_pps_limit + cfg.burst_allowance) - min i cfg.per_ip_pps_limit)
          > 0 from by omega)]
    simp only [Prod.mk.injEq, true_and]
    congr 1
    simp only [IpRateState.mk.injEq]
    and_intros <;> first | trivial | omega
  · rw [if_neg (show ¬ ((i + 1) % 2^32 > cfg.per_ip_pps_limit) from by omega)]
    simp only [Prod.mk.injEq, true_and]
    congr 1
    simp only [IpRateState.mk.injEq]
    and_intros <;> first | trivial | omega

theorem ip_step_drop (cfg : RateLimitConfig) (m : List (Nat × IpRateState))
    (src t t0 : Nat)
    (hR : 1 ≤ cfg.per_ip_pps_limit)
    (hovf : cfg.per_ip_pps_limit + cfg.burst_allowance + 1 < 2^32)
    (ht0 : t0 ≤ t) (htw : t - t0 < cfg.window_size_ns)
    (hm : lookupM m src =
      some (ipInv cfg t0 (cfg.per_ip_pps_limit + cfg.burst_allowance))) :
    (check_ip_rate_limit cfg m src t).1 = .drop := by
  unfold check_ip_rate_limit
  rw [hm]
  dsimp only [ipInv]
  rw [if_neg (show ¬ ((t + 2^64 - t0) % 2^64 ≥ cfg.window_size_ns) from by omega)]
  dsimp only
  rw [if_pos (show (cfg.per_ip_pps_limit + cfg.burst_allowance + 1) % 2^32 >
      cfg.per_ip_pps_limit from by omega)]
  rw [if_neg (show ¬ (cfg.burst_allowance -
      (min (cfg.per_ip_pps_limit + cfg.burst_allowance)
          (cfg.per_ip_pps_limit + cfg.burst_allowance) -
        min (cfg.per_ip_pps_limit + cfg.burst_allowance) cfg.per_ip_pps_limit)
        > 0) from by omega)]

theorem runIp_all_pass (cfg : RateLimitConfig) (src t0 : Nat)
    (hR : 1 ≤ cfg.per_ip_pps_limit)
    (hovf : cfg.per_ip_pps_limit + cfg.burst_allowance + 1 < 2^32) :
    ∀ (ts : List Nat) (i : Nat) (m : List (Nat × IpRateState)),
      1 ≤ i → i + ts.length ≤ cfg.per_ip_pps_limit + cfg.burst_allowance →
      (∀ t ∈ ts, t0 ≤ t ∧ t - t0 < cfg.window_size_ns) →
      lookupM m src = some (ipInv cfg t0 i) →
      (runIp cfg src ts m).1 = List.replicate ts.length .pass ∧
      lookupM (runIp cfg src ts m).2 src = some (ipInv cfg t0 (i + ts.length)) := by
  intro ts
  induction ts with
  | nil =>
      intro i m hi hcap hw hm
      exact ⟨rfl, by simpa using hm⟩
  | cons t rest ih =>
      intro i m hi hcap hw hm
      have hcap₁ : i + 1 ≤ cfg.per_ip_pps_limit + cfg.burst_allowance := by
        simp only [List.length_cons] at hcap
        omega
      have hstep := ip_step_inwindow cfg m src t t0 i hi hR hcap₁ hovf
        (hw t (List.mem_cons_self _ _)).1 (hw t (List.mem_cons_self _ _)).2 hm
      have hrest := ih (i + 1) (updateM m src (ipInv cfg t0 (i + 1))) (by omega)
        (by simp only [List.length_cons] at hcap; omega)
        (fun t₁ ht₁ => hw t₁ (List.mem_cons_of_mem _ ht₁))
        lookupM_updateM_self
      simp only [runIp, hstep]
      constructor
      · simp only [List.length_cons, List.replicate_succ, hrest.1]
      · simpa [Nat.add_assoc, Nat.add_comm 1 rest.length] using hrest.2

theorem runIp_append (cfg : RateLimitConfig) (src : Nat) (xs ys : List Nat)
    (m : List (Nat × IpRateState)) :
    runIp cfg src (xs ++ ys) m =
      ((runIp cfg src xs m).1 ++ (runIp cfg src ys (runIp cfg src xs m).2).1,
       (runIp cfg src ys (runIp cfg src xs m).2).2) := by
  induction xs generalizing m with
  | nil => simp [runIp]
  | cons x rest ih => simp [runIp, ih]

/-- C3: with per-source rate `R = per_ip_pps_limit ≥ 1` and burst
allowance `B`, a fresh source sending `R+B+1` packets inside a single
window is admitted exactly `R+B` times and the `R+B+1`-st packet is
dropped as rate-limited; moreover any packet arriving a full window or
more after a bucket's `last_update_ns` is admitted with the burst
allowance replenished to `B` and the window count reset to 1. -/
theorem c3_window_admits_R_plus_B (cfg : RateLimitConfig) (src t0 tl : Nat)
    (mid : List Nat) (m : List (Nat × IpRateState))
    (hR : 1 ≤ cfg.per_ip_pps_limit)
    (hovf : cfg.per_ip_pps_limit + cfg.burst_allowance + 1 < 2^32)
    (hlen : mid.length + 1 = cfg.per_ip_pps_limit + cfg.burst_allowance)
    (hmid : ∀ t ∈ mid, t0 ≤ t ∧ t - t0 < cfg.window_size_ns)
    (htl0 : t0 ≤ tl) (htlw : tl - t0 < cfg.window_size_ns)
    (hfresh : lookupM m src = none) :
    ((runIp cfg src (t0 :: mid ++ [tl]) m).1 =
      List.replicate (cfg.per_ip_pps_limit + cfg.burst_allowance) .pass ++ [.drop]) ∧
    (∀ (m₁ : List (Nat × IpRateState)) (src₁ t₁ : Nat) (st₁ : IpRateState),
      lookupM m₁ src₁ = some st₁ → st₁.last_update_ns ≤ t₁ →
      cfg.window_size_ns ≤ t₁ - st₁.last_update_ns → t₁ - st₁.last_update_ns < 2^64 →
      (check_ip_rate_limit cfg m₁ src₁ t₁).1 = .pass ∧
      (lookupM (check_ip_rate_limit cfg m₁ src₁ t₁).2 src₁).map
        (fun st₂ => (st₂.packet_count, st₂.burst_tokens)) =
        some (1, cfg.burst_allowance)) := by
  constructor
  · have hcreate : check_ip_rate_limit cfg m src t0 =
        (.pass, updateM m src (ipInv cfg t0 1)) := by
      unfold check_ip_rate_limit
      rw [hfresh]
      simp only [Prod.mk.injEq, true_and]
      congr 1
      simp only [ipInv, IpRateState.mk.injEq]
      and_intros <;> first | trivial | omega
    have hrun := runIp_all_pass cfg src t0 hR hovf mid 1
      (updateM m src (ipInv cfg t0 1)) (le_refl _) (by omega) hmid lookupM_updateM_self
    have hdrop := ip_step_drop cfg (runIp cfg src mid
      (updateM m src (ipInv cfg t0 1))).2 src tl t0 hR hovf htl0 htlw
      (by rw [hrun.2]; congr 1; congr 1; omega)
    simp only [runIp, hcreate, List.append_eq, runIp_append]
    rw [hrun.1, hdrop]
    rw [show cfg.per_ip_pps_limit + cfg.burst_allowance = mid.length + 1 from hlen.symm]
    simp [List.replicate_succ]
  · intro m₁ src₁ t₁ st₁ hm₁ hle hwin hlt
    unfold check_ip_rate_limit
    rw [hm₁]
    dsimp only
    rw [if_pos (show (t₁ + 2^64 - st₁.last_update_ns) % 2^64 ≥ cfg.window_size_ns
      from by omega)]
    dsimp only
    rw [if_neg (show ¬ ((1 : Nat) > cfg.per_ip_pps_limit) from by omega)]
    exact ⟨rfl, by rw [lookupM_updateM_self]; rfl⟩

/-- Witness for C3: rate 1, burst 1, window 1s — packets at t = 0, 1, 2
ns give PASS, PASS, DROP. -/
theorem c3_window_admits_R_plus_B_witness :
    (runIp cfgRL 7 [0, 1, 2] []).1 = [.pass, .pass, .drop] := by
  have h := (c3_window_admits_R_plus_B cfgRL 7 0 2 [1] [] (by decide) (by decide)
    (by decide) (by decide) (by decide) (by decide) rfl).1
  exact h.trans (by decide)

/-! ## Claim C1 -/

/-- C1 (amended): in the enhanced XDP engine, every packet whose buffer
is shorter than the headers it declares (truncated Ethernet, IPv4 or
TCP/UDP/ICMP header) is dropped with the dedicated malformed counter
`invalid_packets` incremented by exactly 1 (alongside the shared
`dropped_packets` counter), and no other path — including the policy
drops for rate-limit and auth failures — ever touches
`invalid_packets`.  The other filter variants do not share this
behaviour (see the counterexample on `marchproxy_filter`). -/
theorem c1_malformed_drop (st : EngState) (p : Pkt) (now : Nat) (g : GlobalStats)
    (hs : st.stats = some g) :
    (parsePkt p = .invalid →
       (processPacket st p now).1 = .drop ∧
       (processPacket st p now).2.stats = some { g with
          total_packets := (g.total_packets + 1) % 2^64, last_update := now,
          dropped_packets := (g.dropped_packets + 1) % 2^64,
          invalid_packets := (g.invalid_packets + 1) % 2^64 }) ∧
    (parsePkt p ≠ .invalid →
       ((processPacket st p now).2.stats).map GlobalStats.invalid_packets =
         some g.invalid_packets) := by
  constructor
  · intro hparse
    constructor
    · simp [processPacket, hparse, bumpStats, hs]
    · simp [processPacket, hparse, bumpStats, hs]
  · intro hparse
    cases hp : parsePkt p with
    | invalid => exact absurd hp hparse
    | passThrough => simp [processPacket, hp, bumpStats, hs]
    | ok src dst sp dp pr =>
        simp only [processPacket, hp, bumpStats, hs]
        cases hf : findService st.services dst dp pr with
        | none => simp [hf]
        | some ks =>
            obtain ⟨k, svc⟩ := ks
            simp only [hf]
            repeat' split
            all_goals simp

/-- Counterexample for C1: `pTrunc40` declares a TCP header (complete
IPv4 header, protocol 6) but its 40-byte buffer ends before the 20-byte
TCP header, yet the `marchproxy_filter` engine of `filter.c` (one of
the cited implementations) passes it to userspace instead of dropping
it — and `filter.c` has no dedicated malformed counter at all. -/
theorem c1_counterexample :
    (ntohs pTrunc40.ethProto = ETH_P_IP ∧ pTrunc40.ipVersion = 4 ∧
     pTrunc40.ihl = 5 ∧ pTrunc40.ipProto = PROTO_TCP ∧
     pTrunc40.len < 14 + pTrunc40.ihl * 4 + 20) ∧
    (marchproxy_filter stFilter pTrunc40).1 = .pass := by
  refine ⟨by decide, by decide⟩

/-- Witness for C1: the truncated-TCP frame is dropped by the enhanced
engine with `invalid_packets` going from 0 to 1. -/
theorem c1_malformed_drop_witness :
    (processPacket stAuth pTrunc40 3).1 = .drop ∧
    ((processPacket stAuth pTrunc40 3).2.stats).map GlobalStats.invalid_packets =
      some 1 := by
  have h := (c1_malformed_drop stAuth pTrunc40 3 gZero rfl).1 (by decide)
  refine ⟨h.1, ?_⟩
  rw [h.2]
  decide

/-! ## Claim C4 -/

/-- C4 (amended): the connection table is updated exactly when the
packet has survived service matching and (when configured) rate
limiting — that is, *before* the authentication check: auth-failure
drops, slow-path redirects and fast-path passes all mutate the table,
while malformed, non-IPv4, unknown-protocol, unmatched and rate-limited
packets leave it unchanged. -/
theorem c4_conn_tracking_frame (st : EngState) (p : Pkt) (now : Nat) :
    ((parsePkt p = .invalid ∨ parsePkt p = .passThrough) →
       (processPacket st p now).2.connMap = st.connMap) ∧
    (∀ src dst sp dp pr, parsePkt p = .ok src dst sp dp pr →
       (findService st.services dst dp pr = none →
          (processPacket st p now).2.connMap = st.connMap) ∧
       (∀ k svc, findService st.services dst dp pr = some (k, svc) →
          ((0 < svc.rate_limit_pps ∧
            (check_rate_limit st.rateMap now src svc.rate_limit_pps).1 = false) →
             (processPacket st p now).2.connMap = st.connMap) ∧
          ((svc.rate_limit_pps = 0 ∨
            (check_rate_limit st.rateMap now src svc.rate_limit_pps).1 = true) →
             (processPacket st p now).2.connMap =
               update_connection_tracking st.connMap now src dst sp dp pr k p.len))) := by
  constructor
  · rintro (hp | hp) <;> simp [processPacket, hp, bumpStats]
  · intro src dst sp dp pr hp
    constructor
    · intro hf
      simp [processPacket, hp, bumpStats, hf]
    · intro k svc hf
      constructor
      · rintro ⟨hrp, hrl⟩
        simp only [processPacket, hp, bumpStats, hf]
        rw [if_pos hrp, if_pos hrl]
      · rintro (hrp | hrl)
        · simp only [processPacket, hp, bumpStats, hf]
          rw [if_neg (by omega : ¬ svc.rate_limit_pps > 0)]
          repeat' split
          all_goals simp_all
        · simp only [processPacket, hp, bumpStats, hf]
          by_cases hrp : svc.rate_limit_pps > 0
          · rw [if_pos hrp, if_neg (by simp [hrl])]
            repeat' split
            all_goals simp_all
          · rw [if_neg hrp]
            repeat' split
            all_goals simp_all

/-- Counterexample for C4: `pTcp86` matches the simple-auth service,
fails the auth check (no `Auth` marker in its payload), and is dropped
with `auth_failures = 1` — yet the connection table, empty beforehand,
now holds an entry: the drop did not leave the table unchanged. -/
theorem c4_counterexample :
    (processPacket stAuth pTcp86 100).1 = .drop ∧
    ((processPacket stAuth pTcp86 100).2.stats).map GlobalStats.auth_failures =
      some 1 ∧
    stAuth.connMap = [] ∧
    (processPacket stAuth pTcp86 100).2.connMap ≠ [] := by
  refine ⟨by decide, by decide, rfl, by decide⟩

/-- Witness for C4: with the rate limiter unconfigured
(`rate_limit_pps = 0`) the processed packet's connection-map equation
from the amended theorem holds at the concrete auth-drop input. -/
theorem c4_conn_tracking_frame_witness :
    (processPacket stAuth pTcp86 100).2.connMap =
      update_connection_tracking stAuth.connMap 100 pTcp86.saddr pTcp86.daddr
        (ntohs pTcp86.tcpSource) (ntohs pTcp86.tcpDest) PROTO_TCP 1 pTcp86.len := by
  have h := ((c4_conn_tracking_frame stAuth pTcp86 100).2 pTcp86.saddr pTcp86.daddr
    (ntohs pTcp86.tcpSource) (ntohs pTcp86.tcpDest) PROTO_TCP (by decide)).2 1 svcAuth
    (by decide)
  exact h.2 (Or.inl rfl)
